import Mathlib

/-!
Shallow embedding of the `huxcrux/docker-manager` reconciler.

The Go program manages a small fleet of Docker containers: it converts a YAML
configuration into desired container specs, compares each desired spec with the
observed container of the same name, recreates mismatched containers, prunes
undesired ones, checks image freshness, and aggregates per-container runtime
stats into Prometheus gauges.

Modelling conventions:
* Go maps (`nat.PortSet`, `nat.PortMap`) are modelled as association lists
  without duplicate keys; `reflect.DeepEqual` on maps is the extensional
  equality `portSetEqb` / `portMapEqb` defined below.
* A Go nil slice vs a non-nil slice matters only for `ContainerConfig.Cmd`
  (the code tests `config.Cmd != nil`); both `cmd` fields are therefore
  `Option (List String)` with `none` standing for the nil slice, matching
  `reflect.DeepEqual`'s nil/non-nil distinction.
* The Docker engine is an explicit state (`Engine`); each engine call from
  `pkg/docker` and `main.go` is a state-passing function.  Transport failure is
  modelled by the `listOk` flag (list/inspect-style calls fail when false).
* `nat.NewPort` (external go-connections library) builds the string
  `port ++ "/" ++ proto`; its validation of the port string is an external
  collaborator and is modelled as always succeeding, since no claim depends on
  rejecting a malformed port.
* `log.Fatalf` terminates the process; handler outcomes therefore distinguish
  `processExit` from an HTTP 500 response.
-/

/-- Host side of one port binding (`nat.PortBinding`). -/
structure PortBinding where
  hostIP : String
  hostPort : String
deriving DecidableEq, Repr

/-- A `nat.Port` is the string `"<port>/<proto>"`. -/
abbrev Port := String

/-- Model of `nat.NewPort(proto, port)` (validation elided, see header). -/
def newPort (proto port : String) : Port := port ++ "/" ++ proto

/-- Go `nat.PortSet` = `map[Port]struct{}`, as a duplicate-free list. -/
abbrev PortSet := List Port

/-- Go `nat.PortMap` = `map[Port][]PortBinding`, as an association list. -/
abbrev PortMap := List (Port × List PortBinding)

/-- Go map read `m[k]` (with presence bit). -/
def mapLookup (m : PortMap) (k : Port) : Option (List PortBinding) :=
  (m.find? (fun kv => decide (kv.1 = k))).map (fun kv => kv.2)

/-- Go map write `m[k] = v`: overwrite the binding for `k` if present. -/
def mapInsert (m : PortMap) (k : Port) (v : List PortBinding) : PortMap :=
  if m.any (fun kv => decide (kv.1 = k)) then
    m.map (fun kv => if kv.1 = k then (k, v) else kv)
  else m ++ [(k, v)]

/-- Go map write `s[k] = struct\x7b\x7d{}` on a `PortSet`. -/
def setInsert (s : PortSet) (k : Port) : PortSet :=
  if s.any (fun p => decide (p = k)) then s else s ++ [k]

/-- Extensional equality of port sets: `reflect.DeepEqual` on `nat.PortSet`. -/
def portSetEqb (a b : PortSet) : Bool :=
  a.all (fun p => b.any (fun q => decide (q = p))) &&
  b.all (fun p => a.any (fun q => decide (q = p)))

/-- Extensional equality of port maps: `reflect.DeepEqual` on `nat.PortMap`. -/
def portMapEqb (m1 m2 : PortMap) : Bool :=
  m1.all (fun kv => decide (mapLookup m2 kv.1 = some kv.2)) &&
  m2.all (fun kv => decide (mapLookup m1 kv.1 = some kv.2))

/-- Desired spec: `docker.ContainerConfig` from `pkg/docker/container.go`. -/
structure ContainerConfig where
  image : String
  name : String
  exposedPorts : PortSet
  portBindings : PortMap
  env : List String
  cmd : Option (List String)
deriving DecidableEq, Repr

/-- Observed container: list-entry and inspect data merged.  `name` is the
engine name without the leading slash (`Names[0]` is `"/" ++ name`); `image` is
`inspect.Config.Image` (the reference string) and `imageID` is `inspect.Image`
(the content identifier of the running image). -/
structure Container where
  id : String
  name : String
  image : String
  imageID : String
  exposedPorts : PortSet
  portBindings : PortMap
  env : List String
  cmd : Option (List String)
  running : Bool
deriving DecidableEq, Repr

/-- One entry of the local image index (`image.Summary`). -/
structure ImageEntry where
  id : String
  repoTags : List String
deriving DecidableEq, Repr

/-- Mock Docker engine state.  `listOk = false` models an unreachable engine:
list/inspect calls fail with a transport error. -/
structure Engine where
  containers : List Container
  images : List ImageEntry
  listOk : Bool
  nextId : Nat
deriving DecidableEq, Repr

/-- Registry contents: what `ImagePull` resolves a reference to. -/
abbrev Registry := List (String × ImageEntry)

/-- Engine-side error taxonomy. -/
inductive DErr where
  | notFound
  | engineUnavailable
  | pullError
  | imageNotFound (ref : String)
  | nameNotFound
  | fatalf
deriving DecidableEq, Repr

/-- Trace events emitted by the reconciliation model. -/
inductive Event where
  | created (name : String)
  | createdByEnsure (name : String)
  | recreatedMismatch (name : String)
  | freshnessChecked (name : String)
  | recreatedStale (name : String)
  | pulled (ref : String)
  | deleted (id : String)
  | started (id : String)
deriving DecidableEq, Repr

/-- Model of `reflect.DeepEqual(inspect.Config.Cmd, config.Cmd)`: the two
operands have distinct Go types — `inspect.Config.Cmd` is a
`strslice.StrSlice`, `config.Cmd` is a `[]string` — and `reflect.DeepEqual`
reports values of distinct types as never deeply equal, so this comparison is
constantly false, whatever the contents of the two command lists. -/
def deepEqualCmd (_observedCmd _desiredCmd : Option (List String)) : Bool :=
  false

/-- Comparator of `ensureContainerConfig` (main.go lines 114-147): collects the
field mismatches between the inspected container and the desired config.  The
environment-variable comparison is commented out in the source; the command
comparison runs only when the desired `Cmd` slice is non-nil, and is then the
constantly-false cross-type `reflect.DeepEqual` (see `deepEqualCmd`), so a
declared desired command always registers as a mismatch. -/
def needsUpdateB (cfg : ContainerConfig) (c : Container) : Bool :=
  (!portSetEqb c.exposedPorts cfg.exposedPorts) ||
  (!portMapEqb c.portBindings cfg.portBindings) ||
  (!decide (c.image = cfg.image)) ||
  (cfg.cmd.isSome && !deepEqualCmd c.cmd cfg.cmd)

/-! Lemmas relating the boolean DeepEqual models to extensional equality. -/

theorem portSetEqb_iff (a b : PortSet) :
    portSetEqb a b = true ↔ ∀ p, p ∈ a ↔ p ∈ b := by
  simp only [portSetEqb, Bool.and_eq_true, List.all_eq_true, List.any_eq_true,
    decide_eq_true_eq]
  constructor
  · rintro ⟨h1, h2⟩ p
    constructor
    · intro hp
      obtain ⟨q, hq, rfl⟩ := h1 p hp
      exact hq
    · intro hp
      obtain ⟨q, hq, rfl⟩ := h2 p hp
      exact hq
  · intro h
    exact ⟨fun p hp => ⟨p, (h p).mp hp, rfl⟩, fun p hp => ⟨p, (h p).mpr hp, rfl⟩⟩

theorem mapLookup_of_mem_nodup {m : PortMap} {kv : Port × List PortBinding}
    (hm : (m.map Prod.fst).Nodup) (h : kv ∈ m) :
    mapLookup m kv.1 = some kv.2 := by
  induction m with
  | nil => cases h
  | cons x rest ih =>
    simp only [List.map_cons, List.nodup_cons] at hm
    rcases List.mem_cons.mp h with rfl | hmem
    · simp [mapLookup, List.find?_cons_of_pos]
    · have hne : x.1 ≠ kv.1 := by
        intro he
        exact hm.1 (he ▸ List.mem_map_of_mem Prod.fst hmem)
      have := ih hm.2 hmem
      simpa [mapLookup, List.find?_cons_of_neg, hne] using this

theorem portMapEqb_iff {m1 m2 : PortMap}
    (h1 : (m1.map Prod.fst).Nodup) (h2 : (m2.map Prod.fst).Nodup) :
    portMapEqb m1 m2 = true ↔ ∀ k, mapLookup m1 k = mapLookup m2 k := by
  simp only [portMapEqb, Bool.and_eq_true, List.all_eq_true, decide_eq_true_eq]
  constructor
  · rintro ⟨ha, hb⟩ k
    rcases hl : mapLookup m1 k with _ | v
    · rcases hl2 : mapLookup m2 k with _ | v2
      · rfl
      · exfalso
        simp only [mapLookup, Option.map_eq_some'] at hl2
        obtain ⟨kv, hfind, hv⟩ := hl2
        have hkv := List.mem_of_find?_eq_some hfind
        have hk : kv.1 = k := by
          have := List.find?_some hfind
          simpa using this
        have := hb kv hkv
        rw [hk] at this
        rw [this] at hl
        cases hl
    · simp only [mapLookup, Option.map_eq_some'] at hl
      obtain ⟨kv, hfind, hv⟩ := hl
      have hkv := List.mem_of_find?_eq_some hfind
      have hk : kv.1 = k := by
        have := List.find?_some hfind
        simpa using this
      have := ha kv hkv
      rw [hk, hv] at this
      exact this.symm
  · intro h
    constructor
    · intro kv hkv
      rw [← h kv.1]
      exact mapLookup_of_mem_nodup h1 hkv
    · intro kv hkv
      rw [h kv.1]
      exact mapLookup_of_mem_nodup h2 hkv

/-- C1 amended: for a desired spec and an observed container of the same name,
the comparator reports no update exactly when the exposed-port set, the
port-binding map and the image reference agree field-wise AND the desired
command is unset (nil): a declared desired command always forces a recreate,
because the cross-type `reflect.DeepEqual` in the command check is constantly
false whatever the command contents; and the verdict is invariant under
changing either side's environment list and under changing the observed
command list. -/
theorem comparator_noop_iff (cfg : ContainerConfig) (c : Container)
    (hname : c.name = cfg.name)
    (hnd1 : (c.portBindings.map Prod.fst).Nodup)
    (hnd2 : (cfg.portBindings.map Prod.fst).Nodup) :
    (needsUpdateB cfg c = false ↔
      ((∀ p, p ∈ c.exposedPorts ↔ p ∈ cfg.exposedPorts) ∧
       (∀ k, mapLookup c.portBindings k = mapLookup cfg.portBindings k) ∧
       c.image = cfg.image ∧
       cfg.cmd = none)) ∧
    (∀ e1 e2, needsUpdateB { cfg with env := e1 } { c with env := e2 } =
      needsUpdateB cfg c) ∧
    (∀ cmds, needsUpdateB cfg { c with cmd := cmds } = needsUpdateB cfg c) := by
  refine ⟨?_, fun e1 e2 => rfl, fun cmds => rfl⟩
  rw [← portSetEqb_iff c.exposedPorts cfg.exposedPorts,
    ← portMapEqb_iff hnd1 hnd2]
  cases hc : cfg.cmd with
  | none => simp [needsUpdateB, deepEqualCmd, hc, and_assoc]
  | some l => simp [needsUpdateB, deepEqualCmd, hc, and_assoc]

/-- Desired spec with a declared command, for the C1 counterexample. -/
def cfgCmd : ContainerConfig :=
  ⟨"nginx:latest", "web", ["80/tcp"], [("80/tcp", [⟨"0.0.0.0", "8090"⟩])],
    ["k=v"], some ["nginx", "-g", "daemon off;"]⟩

/-- Observed container agreeing with `cfgCmd` on every compared field,
including the command list, for the C1 counterexample. -/
def cCmd : Container :=
  ⟨"c0", "web", "nginx:latest", "sha256:a", ["80/tcp"],
    [("80/tcp", [⟨"0.0.0.0", "8090"⟩])], ["k=v"],
    some ["nginx", "-g", "daemon off;"], true⟩

/-- C1 counterexample: observed and desired agree on name, exposed ports, port
bindings, image AND the declared command list, yet the comparator still
demands a recreate — the claimed "NoOp iff field-wise equal (command included
when declared)" is false of the code, whose cross-type `reflect.DeepEqual`
command check never succeeds. -/
theorem comparator_declared_cmd_always_recreates :
    cCmd.name = cfgCmd.name ∧
    cCmd.cmd = cfgCmd.cmd ∧
    cCmd.image = cfgCmd.image ∧
    portSetEqb cCmd.exposedPorts cfgCmd.exposedPorts = true ∧
    portMapEqb cCmd.portBindings cfgCmd.portBindings = true ∧
    needsUpdateB cfgCmd cCmd = true := by
  decide

/-- Concrete desired spec used by the C1 witness. -/
def cfgW : ContainerConfig :=
  ⟨"nginx:latest", "web", ["80/tcp"], [("80/tcp", [⟨"0.0.0.0", "8090"⟩])],
    ["k=v"], none⟩

/-- Concrete observed container used by the C1 witness. -/
def cW : Container :=
  ⟨"c0", "web", "nginx:latest", "sha256:a", ["80/tcp"],
    [("80/tcp", [⟨"0.0.0.0", "8090"⟩])], ["k=v", "PATH=/bin"], some ["nginx"], true⟩

/-- Witness for C1 at a concrete matching pair (unset desired command). -/
theorem comparator_noop_iff_witness :
    (needsUpdateB cfgW cW = false ↔
      ((∀ p, p ∈ cW.exposedPorts ↔ p ∈ cfgW.exposedPorts) ∧
       (∀ k, mapLookup cW.portBindings k = mapLookup cfgW.portBindings k) ∧
       cW.image = cfgW.image ∧
       cfgW.cmd = none)) ∧
    (∀ e1 e2, needsUpdateB { cfgW with env := e1 } { cW with env := e2 } =
      needsUpdateB cfgW cW) ∧
    (∀ cmds, needsUpdateB cfgW { cW with cmd := cmds } = needsUpdateB cfgW cW) :=
  comparator_noop_iff cfgW cW rfl (by decide) (by decide)

/-! Configuration model (`pkg/config/format.go`) and the conversion to desired
specs (`pkg/config`, `ConfigToDockerConfig`). -/

/-- One `port_bindings` entry of the YAML configuration. -/
structure ConfigPortBinding where
  port : String
  protocol : String
  hostIP : String
  hostPort : String
deriving DecidableEq, Repr

/-- One `containers` entry of the YAML configuration. -/
structure ConfigContainer where
  image : String
  name : String
  portBindings : List ConfigPortBinding
  env : List String
  cmd : Option (List String)
deriving DecidableEq, Repr

/-- The `app_config` section. -/
structure AppConfig where
  debug : Bool
  updateCheck : Bool
  removeUnwantedContainers : Bool
deriving DecidableEq, Repr

/-- The whole configuration document. -/
structure Config where
  appConfig : AppConfig
  containers : List ConfigContainer
deriving DecidableEq, Repr

/-- Port-set construction loop of `ConfigToDockerConfig`:
`portSet[port] = struct\x7b\x7d{}` for each declared binding. -/
def buildPortSet (pbs : List ConfigPortBinding) : PortSet :=
  pbs.foldl (fun s pb => setInsert s (newPort pb.protocol pb.port)) []

/-- Port-map construction loop of `ConfigToDockerConfig`:
`portMap[port] = []nat.PortBinding{{HostIP, HostPort}}` for each declared
binding — a map assignment, so a later binding for the same port/protocol
overwrites an earlier one with a fresh one-element list. -/
def buildPortMap (pbs : List ConfigPortBinding) : PortMap :=
  pbs.foldl
    (fun m pb => mapInsert m (newPort pb.protocol pb.port) [⟨pb.hostIP, pb.hostPort⟩])
    []

/-- Conversion of one configured container into a desired spec. -/
def convertOne (cc : ConfigContainer) : ContainerConfig :=
  ⟨cc.image, cc.name, buildPortSet cc.portBindings, buildPortMap cc.portBindings,
    cc.env, cc.cmd⟩

/-- Model of `config.ConfigToDockerConfig`.  The Go function appends the
converted specs to the package-level slice `containers` and returns that
slice; the slice is the first argument here and the returned list is the new
value of that global. -/
def configToDockerConfig (globalContainers : List ContainerConfig) (c : Config) :
    List ContainerConfig :=
  globalContainers ++ c.containers.map convertOne

/-! Lemmas for the last-wins behaviour of the port-map construction (C10). -/

theorem mapLookup_cons (x : Port × List PortBinding) (m : PortMap) (k : Port) :
    mapLookup (x :: m) k = if x.1 = k then some x.2 else mapLookup m k := by
  by_cases h : x.1 = k <;> simp [mapLookup, h]

theorem mapLookup_map_replace_self (m : PortMap) (k : Port) (v : List PortBinding)
    (h : m.any (fun kv => decide (kv.1 = k)) = true) :
    mapLookup (m.map (fun kv => if kv.1 = k then (k, v) else kv)) k = some v := by
  induction m with
  | nil => cases h
  | cons x rest ih =>
    by_cases hx : x.1 = k
    · simp [List.map_cons, hx, mapLookup_cons]
    · simp only [List.any_cons, Bool.or_eq_true, decide_eq_true_eq] at h
      rcases h with h | h
      · exact absurd h hx
      · simp only [List.map_cons, if_neg hx, mapLookup_cons]
        exact ih h

theorem mapLookup_append_single_self (m : PortMap) (k : Port) (v : List PortBinding)
    (h : ¬m.any (fun kv => decide (kv.1 = k)) = true) :
    mapLookup (m ++ [(k, v)]) k = some v := by
  induction m with
  | nil => simp [mapLookup_cons]
  | cons x rest ih =>
    simp only [List.any_cons, Bool.or_eq_true, decide_eq_true_eq] at h
    push_neg at h
    rw [List.cons_append, mapLookup_cons, if_neg h.1]
    exact ih (by simpa using h.2)

theorem mapLookup_map_replace_ne (m : PortMap) {k k' : Port} (v : List PortBinding)
    (h : ¬k' = k) :
    mapLookup (m.map (fun kv => if kv.1 = k' then (k', v) else kv)) k =
      mapLookup m k := by
  induction m with
  | nil => simp
  | cons x rest ih =>
    by_cases hx : x.1 = k'
    · rw [List.map_cons, if_pos hx, mapLookup_cons, mapLookup_cons, if_neg h,
        if_neg (hx ▸ h)]
      exact ih
    · rw [List.map_cons, if_neg hx, mapLookup_cons, mapLookup_cons]
      by_cases hxk : x.1 = k
      · rw [if_pos hxk, if_pos hxk]
      · rw [if_neg hxk, if_neg hxk]
        exact ih

theorem mapLookup_append_single_ne (m : PortMap) {k k' : Port}
    (v : List PortBinding) (h : ¬k' = k) :
    mapLookup (m ++ [(k', v)]) k = mapLookup m k := by
  induction m with
  | nil => simp [mapLookup_cons, h]
  | cons x rest ih =>
    rw [List.cons_append, mapLookup_cons, mapLookup_cons]
    by_cases hxk : x.1 = k
    · rw [if_pos hxk, if_pos hxk]
    · rw [if_neg hxk, if_neg hxk]
      exact ih

theorem mapLookup_insert_self (m : PortMap) (k : Port) (v : List PortBinding) :
    mapLookup (mapInsert m k v) k = some v := by
  unfold mapInsert
  split
  · next h => exact mapLookup_map_replace_self m k v h
  · next h => exact mapLookup_append_single_self m k v h

theorem mapLookup_insert_ne (m : PortMap) {k k' : Port} (v : List PortBinding)
    (h : ¬k' = k) : mapLookup (mapInsert m k' v) k = mapLookup m k := by
  unfold mapInsert
  split
  · exact mapLookup_map_replace_ne m v h
  · exact mapLookup_append_single_ne m v h

theorem buildPortMap_lookup (pbs : List ConfigPortBinding) (m : PortMap) (k : Port) :
    mapLookup
        (pbs.foldl
          (fun m pb =>
            mapInsert m (newPort pb.protocol pb.port) [⟨pb.hostIP, pb.hostPort⟩]) m)
        k =
      match (pbs.filter
          (fun pb => decide (newPort pb.protocol pb.port = k))).getLast? with
      | some pb => some [⟨pb.hostIP, pb.hostPort⟩]
      | none => mapLookup m k := by
  induction pbs generalizing m with
  | nil => simp
  | cons pb rest ih =>
    rw [List.foldl_cons, ih, List.filter_cons]
    by_cases hpb : newPort pb.protocol pb.port = k
    · rw [if_pos (by simpa using hpb), List.getLast?_cons]
      cases hrest :
          (rest.filter (fun pb => decide (newPort pb.protocol pb.port = k))).getLast?
      · simpa [Option.getD] using (hpb ▸ mapLookup_insert_self m _ _)
      · simp [Option.getD]
    · rw [if_neg (by simpa using hpb)]
      cases hrest :
          (rest.filter (fun pb => decide (newPort pb.protocol pb.port = k))).getLast?
      · simpa using mapLookup_insert_ne m _ hpb
      · simp

/-- C10: when several configured `port_bindings` entries share the same
port/protocol key, the constructed desired spec maps that key to the
one-element host list of the LAST declared entry; earlier entries are dropped. -/
theorem portBindings_last_wins (cc : ConfigContainer) (k : Port)
    (pb : ConfigPortBinding)
    (h : (cc.portBindings.filter
        (fun pb => decide (newPort pb.protocol pb.port = k))).getLast? = some pb) :
    mapLookup (convertOne cc).portBindings k = some [⟨pb.hostIP, pb.hostPort⟩] := by
  have hb := buildPortMap_lookup cc.portBindings [] k
  rw [h] at hb
  exact hb

/-- Concrete container declaration with two bindings on the same port/protocol,
used by the C10 witness. -/
def ccDup : ConfigContainer :=
  ⟨"nginx:latest", "web",
    [⟨"80", "tcp", "127.0.0.1", "8090"⟩, ⟨"80", "tcp", "0.0.0.0", "9000"⟩],
    [], none⟩

/-- Witness for C10: only the second (last) declared host pair survives. -/
theorem portBindings_last_wins_witness :
    mapLookup (convertOne ccDup).portBindings "80/tcp" =
      some [⟨"0.0.0.0", "9000"⟩] :=
  portBindings_last_wins ccDup "80/tcp" ⟨"80", "tcp", "0.0.0.0", "9000"⟩ (by decide)

/-- Configuration with a single declared container, used by the C2 theorem. -/
def cfgDemo : Config :=
  ⟨⟨true, true, true⟩,
    [⟨"nginx:latest", "web", [⟨"80", "tcp", "0.0.0.0", "8090"⟩], ["k=v"], none⟩]⟩

/-- C2 evaluation: `ConfigToDockerConfig` appends to the package-level slice
`containers`, so invoking it a second time with the same one-container
configuration returns a two-entry list (the first pass's spec is carried into
the next pass) instead of a fresh one-entry list. -/
theorem configToDockerConfig_accumulates :
    (configToDockerConfig [] cfgDemo).length = 1 ∧
    (configToDockerConfig (configToDockerConfig [] cfgDemo) cfgDemo).length = 2 ∧
    (configToDockerConfig (configToDockerConfig [] cfgDemo) cfgDemo).map
        (fun c => c.name) = ["web", "web"] := by
  decide

/-! Mock engine operations.  Each models one call of the Docker client used by
`pkg/docker/container.go` and `main.go`.  List/inspect-style calls fail with a
transport error when `listOk` is false; stop/remove/start on an absent
container id fail with the engine's not-found error; stop of an existing but
already-stopped container succeeds (the engine answers 304, which the client
does not treat as an error). -/

/-- Engine call `cli.ContainerList(ctx, ListOptions{All: true})`. -/
def containerList (st : Engine) : Except DErr (List Container) :=
  if st.listOk then .ok st.containers else .error .engineUnavailable

/-- Engine call `cli.ContainerInspect(ctx, id)`. -/
def containerInspect (st : Engine) (cid : String) : Except DErr Container :=
  if st.listOk then
    match st.containers.find? (fun c => decide (c.id = cid)) with
    | some c => .ok c
    | none => .error .notFound
  else .error .engineUnavailable

/-- Engine call `cli.ContainerStop(ctx, id, StopOptions{})`. -/
def containerStop (st : Engine) (cid : String) : Except DErr Engine :=
  if st.containers.any (fun c => decide (c.id = cid)) then .ok st
  else .error .notFound

/-- Engine call `cli.ContainerRemove(ctx, id, RemoveOptions{})`. -/
def containerRemove (st : Engine) (cid : String) : Except DErr Engine :=
  if st.containers.any (fun c => decide (c.id = cid)) then
    .ok { st with containers := st.containers.filter (fun c => !decide (c.id = cid)) }
  else .error .notFound

/-- Engine call `cli.ContainerStart(ctx, id, StartOptions{})`: idempotent on a
running container, not-found on an absent id. -/
def containerStart (st : Engine) (cid : String) : Except DErr Engine :=
  if st.containers.any (fun c => decide (c.id = cid)) then
    .ok { st with containers :=
      st.containers.map (fun c => if c.id = cid then { c with running := true } else c) }
  else .error .notFound

/-- The tag-matching loop of `isContainerUpToDate` (main.go lines 72-80): the
inner loop breaks at the first matching tag of one image, but the outer loop
keeps going, so a LATER image carrying the tag overwrites the candidate; the
result is the id of the last image whose repo tags contain `ref`, or `""`.
The engine-side create call resolves its image reference through the same
local index. -/
def resolveLocalImage (images : List ImageEntry) (ref : String) : String :=
  images.foldl
    (fun acc img => if img.repoTags.any (fun t => decide (t = ref)) then img.id else acc)
    ""

/-- Engine call `cli.ContainerCreate(...)`: assigns a fresh id, records the
declared fields, container starts out stopped. -/
def containerCreateRaw (st : Engine) (cfg : ContainerConfig) : Engine × String :=
  let cid := "cid-" ++ toString st.nextId
  ({ st with
      nextId := st.nextId + 1
      containers := st.containers ++
        [⟨cid, cfg.name, cfg.image, resolveLocalImage st.images cfg.image,
          cfg.exposedPorts, cfg.portBindings, cfg.env, cfg.cmd, false⟩] },
    cid)

/-- Registry lookup backing `cli.ImagePull`. -/
def lookupRegistry (reg : Registry) (ref : String) : Option ImageEntry :=
  (reg.find? (fun kv => decide (kv.1 = ref))).map (fun kv => kv.2)

/-- Engine call `cli.ImagePull(ctx, ref, PullOptions{})`: fails when the
registry cannot resolve the reference, otherwise updates the local index with
the pulled image (replacing an entry with the same id, else appending). -/
def imagePull (reg : Registry) (st : Engine) (ref : String) : Except DErr Engine :=
  match lookupRegistry reg ref with
  | none => .error .pullError
  | some img =>
    .ok { st with images :=
      if st.images.any (fun i => decide (i.id = img.id)) then
        st.images.map (fun i => if i.id = img.id then img else i)
      else st.images ++ [img] }

/-- Engine call `cli.ImageList(ctx, ListOptions{})`. -/
def imageList (st : Engine) : Except DErr (List ImageEntry) :=
  if st.listOk then .ok st.images else .error .engineUnavailable

/-- Model of `docker.DeleteContainer` (pkg/docker/container.go lines 23-35):
stop, propagating any error, then remove, propagating any error.  There is no
tolerance of a not-found error at either step. -/
def deleteContainer (st : Engine) (cid : String) : Except DErr Engine :=
  match containerStop st cid with
  | .error e => .error e
  | .ok st1 =>
    match containerRemove st1 cid with
    | .error e => .error e
    | .ok st2 => .ok st2

/-- Model of `docker.CreateContainer` (pkg/docker/container.go lines 37-74):
lists all containers, returns `created = false` when the name already exists,
otherwise issues the engine create and returns `created = true`. -/
def createContainer (st : Engine) (cfg : ContainerConfig) :
    Except DErr (Engine × Bool) :=
  match containerList st with
  | .error e => .error e
  | .ok containers =>
    if containers.any (fun c => decide ("/" ++ c.name = "/" ++ cfg.name)) then
      .ok (st, false)
    else
      .ok ((containerCreateRaw st cfg).1, true)

/-- Model of `docker.GetContainerIDByName`. -/
def getContainerIDByName (st : Engine) (name : String) : Except DErr String :=
  match containerList st with
  | .error e => .error e
  | .ok containers =>
    match containers.find? (fun c => decide ("/" ++ c.name = "/" ++ name)) with
    | some c => .ok c.id
    | none => .error .nameNotFound

/-- Model of `docker.EnsureRunningContainers`: a bare start call. -/
def ensureRunningContainers (st : Engine) (cid : String) : Except DErr Engine :=
  containerStart st cid

/-- C5 counterexample: deleting a container that is already gone returns the
engine's not-found error even though the container does not exist afterwards,
so the delete step is NOT idempotent with respect to absence. -/
theorem deleteContainer_absent_errors :
    deleteContainer ⟨[], [], true, 0⟩ "c0" = .error .notFound ∧
    (⟨[], [], true, 0⟩ : Engine).containers.all
        (fun c => !decide (c.id = "c0")) = true :=
  ⟨rfl, rfl⟩

theorem deleteContainer_eq (st : Engine) (cid : String) :
    deleteContainer st cid =
      if st.containers.any (fun c => decide (c.id = cid)) then
        .ok { st with
          containers := st.containers.filter (fun c => !decide (c.id = cid)) }
      else .error .notFound := by
  unfold deleteContainer containerStop containerRemove
  by_cases h : st.containers.any (fun c => decide (c.id = cid)) = true
  · simp [h]
  · simp [h]

/-- C5 amended: `DeleteContainer` succeeds exactly when the container exists
beforehand (stop of an existing, possibly already-stopped, container succeeds
and the remove then succeeds); when the container is already absent, the stop
step's not-found error is propagated, so delete of an absent container
returns an error rather than success. -/
theorem deleteContainer_spec (st : Engine) (cid : String) :
    deleteContainer st cid =
      if st.containers.any (fun c => decide (c.id = cid)) then
        .ok { st with
          containers := st.containers.filter (fun c => !decide (c.id = cid)) }
      else .error .notFound :=
  deleteContainer_eq st cid

/-! Pruner: `removeUnwantedContainers` (main.go lines 274-302). -/

/-- Loop of `removeUnwantedContainers`: iterates over the container list taken
at the start of the call; any container whose first name matches no configured
container name is deleted (stop + remove), and a delete error aborts the rest
of the loop. -/
def removeLoop (st : Engine) (l : List Container) (cfgs : List ContainerConfig) :
    Except DErr (Engine × List Event) :=
  match l with
  | [] => .ok (st, [])
  | c :: rest =>
    if cfgs.any (fun cfg => decide ("/" ++ c.name = "/" ++ cfg.name)) then
      removeLoop st rest cfgs
    else
      match deleteContainer st c.id with
      | .error e => .error e
      | .ok st' =>
        match removeLoop st' rest cfgs with
        | .error e => .error e
        | .ok (st'', tr) => .ok (st'', Event.deleted c.id :: tr)

/-- Model of `removeUnwantedContainers`. -/
def removeUnwantedContainers (st : Engine) (cfgs : List ContainerConfig) :
    Except DErr (Engine × List Event) :=
  match containerList st with
  | .error e => .error e
  | .ok l => removeLoop st l cfgs

/-- Deletes the pruner must issue, per the spec: exactly the observed
containers whose name matches no desired name, in observed order. -/
def pruneSpecTrace (obs : List Container) (cfgs : List ContainerConfig) :
    List Event :=
  (obs.filter
      (fun c => !cfgs.any (fun cfg => decide ("/" ++ c.name = "/" ++ cfg.name)))).map
    (fun c => Event.deleted c.id)

theorem slash_cancel (a b : String) : ("/" ++ a = "/" ++ b) ↔ a = b := by
  constructor
  · intro h
    have hd := congrArg String.data h
    simp only [String.data_append] at hd
    exact String.ext (by simpa using hd)
  · intro h
    rw [h]

theorem removeLoop_ok (cfgs : List ContainerConfig) (l : List Container) :
    ∀ st : Engine, (∀ c ∈ l, c ∈ st.containers) →
    (l.map (fun c => c.id)).Nodup →
    ∃ st', removeLoop st l cfgs = .ok (st', pruneSpecTrace l cfgs) := by
  induction l with
  | nil => exact fun st _ _ => ⟨st, rfl⟩
  | cons c rest ih =>
    intro st hsub hnd
    simp only [List.map_cons, List.nodup_cons] at hnd
    by_cases hw : cfgs.any (fun cfg => decide ("/" ++ c.name = "/" ++ cfg.name)) = true
    · obtain ⟨st', h⟩ := ih st (fun x hx => hsub x (List.mem_cons_of_mem c hx)) hnd.2
      refine ⟨st', ?_⟩
      rw [removeLoop, if_pos hw, h]
      simp [pruneSpecTrace, List.filter_cons, hw]
    · have hc : c ∈ st.containers := hsub c (List.mem_cons_self c rest)
      have hany : st.containers.any (fun x => decide (x.id = c.id)) = true := by
        simp only [List.any_eq_true, decide_eq_true_eq]
        exact ⟨c, hc, rfl⟩
      have hdel := deleteContainer_eq st c.id
      rw [if_pos hany] at hdel
      have hsub' : ∀ x ∈ rest,
          x ∈ (st.containers.filter (fun y => !decide (y.id = c.id))) := by
        intro x hx
        have hxid : ¬x.id = c.id := by
          intro he
          exact hnd.1 (he ▸ List.mem_map_of_mem (fun y => y.id) hx)
        refine List.mem_filter.mpr ⟨hsub x (List.mem_cons_of_mem c hx), by simp [hxid]⟩
      obtain ⟨st', h⟩ := ih
        { st with containers := st.containers.filter (fun y => !decide (y.id = c.id)) }
        hsub' hnd.2
      refine ⟨st', ?_⟩
      rw [removeLoop, if_neg hw, hdel]
      dsimp only
      rw [h]
      simp [pruneSpecTrace, List.filter_cons, hw]

/-- C7: under a reachable engine and distinct observed engine ids, the pruner
succeeds and issues a delete exactly for the observed containers whose name
appears in no desired spec; a container whose name appears in the desired set
is never deleted, and the characterization is by set membership of the name,
independent of the ordering of both inputs. -/
theorem prune_exact (st : Engine) (cfgs : List ContainerConfig)
    (hup : st.listOk = true)
    (hids : (st.containers.map (fun c => c.id)).Nodup) :
    (∃ st', removeUnwantedContainers st cfgs =
      .ok (st', pruneSpecTrace st.containers cfgs)) ∧
    (∀ c ∈ st.containers,
      (Event.deleted c.id ∈ pruneSpecTrace st.containers cfgs ↔
        ¬∃ cfg ∈ cfgs, cfg.name = c.name)) := by
  constructor
  · obtain ⟨st', h⟩ := removeLoop_ok cfgs st.containers st (fun _ hx => hx) hids
    refine ⟨st', ?_⟩
    rw [removeUnwantedContainers, containerList, if_pos hup]
    dsimp only
    exact h
  · intro c hc
    constructor
    · intro hmem hex
      obtain ⟨cfg, hcfg, hn⟩ := hex
      simp only [pruneSpecTrace, List.mem_map, List.mem_filter] at hmem
      obtain ⟨c', ⟨hcm, hcu⟩, hid⟩ := hmem
      have h1 : c'.id = c.id := by
        simpa using congrArg (fun e => match e with
          | Event.deleted i => i
          | _ => "") hid
      have hcc : c' = c := List.inj_on_of_nodup_map hids hcm hc h1
      subst hcc
      have hany : cfgs.any
          (fun cfg => decide ("/" ++ c'.name = "/" ++ cfg.name)) = true := by
        simp only [List.any_eq_true, decide_eq_true_eq]
        exact ⟨cfg, hcfg, (slash_cancel _ _).mpr hn.symm⟩
      rw [hany] at hcu
      cases hcu
    · intro hnone
      simp only [pruneSpecTrace, List.mem_map]
      refine ⟨c, List.mem_filter.mpr ⟨hc, ?_⟩, rfl⟩
      have hfalse : cfgs.any
          (fun cfg => decide ("/" ++ c.name = "/" ++ cfg.name)) = false := by
        by_contra hb
        simp only [Bool.not_eq_false, List.any_eq_true, decide_eq_true_eq] at hb
        obtain ⟨cfg, hcfg, hdec⟩ := hb
        exact hnone ⟨cfg, hcfg, ((slash_cancel _ _).mp hdec).symm⟩
      simp [hfalse]

/-- Concrete engine for the C7 witness: `web` is desired, `old` is not. -/
def engPrune : Engine :=
  ⟨[⟨"c1", "web", "nginx:latest", "sha256:a", [], [], [], none, true⟩,
    ⟨"c2", "old", "redis:6", "sha256:b", [], [], [], none, true⟩], [], true, 3⟩

/-- Concrete desired set for the C7 witness. -/
def cfgsPrune : List ContainerConfig := [⟨"nginx:latest", "web", [], [], [], none⟩]

/-- Witness for C7 at a concrete observed/desired pair. -/
theorem prune_exact_witness :
    (∃ st', removeUnwantedContainers engPrune cfgsPrune =
      .ok (st', pruneSpecTrace engPrune.containers cfgsPrune)) ∧
    (∀ c ∈ engPrune.containers,
      (Event.deleted c.id ∈ pruneSpecTrace engPrune.containers cfgsPrune ↔
        ¬∃ cfg ∈ cfgsPrune, cfg.name = c.name)) :=
  prune_exact engPrune cfgsPrune rfl (by decide)

/-! Reconciliation loop (main.go): `ensureContainerConfig`,
`isContainerUpToDate`, `ensureContainers`. -/

/-- Model of `ensureContainerConfig` (main.go lines 99-186): list all
containers, find the first one named after the desired spec, inspect it and
run the comparator; recreate it (delete, then the `CreateContainer` wrapper)
when a compared field mismatches; when no container bears the name, issue a
bare engine create. -/
def ensureContainerConfig (st : Engine) (cfg : ContainerConfig) :
    Except DErr (Engine × List Event) :=
  match containerList st with
  | .error e => .error e
  | .ok containers =>
    match containers.find? (fun c => decide ("/" ++ c.name = "/" ++ cfg.name)) with
    | some c =>
      match containerInspect st c.id with
      | .error e => .error e
      | .ok inspect =>
        if needsUpdateB cfg inspect then
          match deleteContainer st c.id with
          | .error e => .error e
          | .ok st1 =>
            match createContainer st1 cfg with
            | .error e => .error e
            | .ok (st2, _) =>
              .ok (st2, [Event.deleted c.id, Event.recreatedMismatch cfg.name])
        else .ok (st, [])
    | none =>
      .ok ((containerCreateRaw st cfg).1, [Event.createdByEnsure cfg.name])

/-- Model of `isContainerUpToDate` (main.go lines 48-96): inspect the running
container, pull the desired image reference (always issued once the inspect
succeeded, even when the image is cached), list the local images, resolve the
reference against the local index (last match wins, see `resolveLocalImage`),
error when nothing matches, otherwise return whether the running image id
equals the resolved id.  The first component records the pull attempt. -/
def isContainerUpToDate (reg : Registry) (st : Engine) (cid : String)
    (cfg : ContainerConfig) : List Event × Except DErr (Bool × Engine) :=
  match containerInspect st cid with
  | .error e => ([], .error e)
  | .ok inspect =>
    ([Event.pulled cfg.image],
      match imagePull reg st cfg.image with
      | .error e => .error e
      | .ok st1 =>
        match imageList st1 with
        | .error e => .error e
        | .ok images =>
          let latestImageID := resolveLocalImage images cfg.image
          if latestImageID = "" then .error (.imageNotFound cfg.image)
          else .ok (decide (inspect.imageID = latestImageID), st1))

/-- C8: once the inspect of the running container succeeds, the pull of the
desired image reference is always attempted (even when the image is already
local); if the pull succeeds but no local image matches the reference
afterwards, the check returns an error (never a stale verdict); and when a
match exists, the verdict is exactly the equality of the running container's
image id with the resolved (last-matching) image id. -/
theorem freshness_check_spec (reg : Registry) (st : Engine) (cid : String)
    (cfg : ContainerConfig) (c : Container)
    (hup : st.listOk = true)
    (hfind : st.containers.find? (fun x => decide (x.id = cid)) = some c) :
    (isContainerUpToDate reg st cid cfg).1 = [Event.pulled cfg.image] ∧
    (imagePull reg st cfg.image = .error .pullError →
      (isContainerUpToDate reg st cid cfg).2 = .error .pullError) ∧
    (∀ st1, imagePull reg st cfg.image = .ok st1 →
      (resolveLocalImage st1.images cfg.image = "" →
        (isContainerUpToDate reg st cid cfg).2 = .error (.imageNotFound cfg.image)) ∧
      (resolveLocalImage st1.images cfg.image ≠ "" →
        (isContainerUpToDate reg st cid cfg).2 =
          .ok (decide (c.imageID = resolveLocalImage st1.images cfg.image), st1))) := by
  have hin : containerInspect st cid = .ok c := by
    rw [containerInspect, if_pos hup, hfind]
  have hlist : ∀ st1 : Engine, imagePull reg st cfg.image = .ok st1 →
      imageList st1 = .ok st1.images := by
    intro st1 hpull
    rw [imagePull] at hpull
    match hreg : lookupRegistry reg cfg.image with
    | none => rw [hreg] at hpull; cases hpull
    | some img =>
      rw [hreg] at hpull
      have : st1.listOk = st.listOk := by
        cases hpull
        rfl
      rw [imageList, this, if_pos hup]
  refine ⟨?_, ?_, ?_⟩
  · rw [isContainerUpToDate, hin]
  · intro hpull
    rw [isContainerUpToDate, hin]
    dsimp only
    rw [hpull]
  · intro st1 hpull
    constructor
    · intro hres
      rw [isContainerUpToDate, hin]
      dsimp only
      rw [hpull]
      dsimp only
      rw [hlist st1 hpull]
      dsimp only
      rw [if_pos hres]
    · intro hres
      rw [isContainerUpToDate, hin]
      dsimp only
      rw [hpull]
      dsimp only
      rw [hlist st1 hpull]
      dsimp only
      rw [if_neg hres]

/-- Concrete engine for the C8 witness: one running container on a stale
image, registry serving a newer image for the same tag. -/
def engFresh : Engine :=
  ⟨[⟨"c0", "web", "nginx:latest", "sha256:old", [], [], [], none, true⟩],
    [⟨"sha256:old", ["nginx:latest"]⟩], true, 1⟩

/-- Registry for the C8 witness. -/
def regFresh : Registry := [("nginx:latest", ⟨"sha256:new", ["nginx:latest"]⟩)]

/-- Witness for C8: concrete check where the pull retags `nginx:latest` to a
new image id and the verdict is the id comparison (false: stale). -/
theorem freshness_check_spec_witness :
    (isContainerUpToDate regFresh engFresh "c0"
        ⟨"nginx:latest", "web", [], [], [], none⟩).1 =
      [Event.pulled "nginx:latest"] ∧
    (imagePull regFresh engFresh "nginx:latest" = .error .pullError →
      (isContainerUpToDate regFresh engFresh "c0"
          ⟨"nginx:latest", "web", [], [], [], none⟩).2 = .error .pullError) ∧
    (∀ st1, imagePull regFresh engFresh "nginx:latest" = .ok st1 →
      (resolveLocalImage st1.images "nginx:latest" = "" →
        (isContainerUpToDate regFresh engFresh "c0"
            ⟨"nginx:latest", "web", [], [], [], none⟩).2 =
          .error (.imageNotFound "nginx:latest")) ∧
      (resolveLocalImage st1.images "nginx:latest" ≠ "" →
        (isContainerUpToDate regFresh engFresh "c0"
            ⟨"nginx:latest", "web", [], [], [], none⟩).2 =
          .ok (decide (("sha256:old" : String) = resolveLocalImage st1.images "nginx:latest"),
            st1))) :=
  freshness_check_spec regFresh engFresh "c0"
    ⟨"nginx:latest", "web", [], [], [], none⟩
    ⟨"c0", "web", "nginx:latest", "sha256:old", [], [], [], none, true⟩
    rfl (by decide)

/-- Stale-image branch of the update check inside `ensureContainers`
(main.go lines 236-259): on a stale verdict, delete the container, create it
again with the `CreateContainer` wrapper (its `created` flag is discarded at
line 249) and re-resolve the engine id by name.  The freshness-check event is
recorded whenever `isContainerUpToDate` is invoked. -/
def freshnessStep (reg : Registry) (st : Engine) (ctid : String)
    (cfg : ContainerConfig) : Except DErr (Engine × String × List Event) :=
  match isContainerUpToDate reg st ctid cfg with
  | (_, .error e) => .error e
  | (pEvs, .ok (upToDate, st1)) =>
    if !upToDate then
      match deleteContainer st1 ctid with
      | .error e => .error e
      | .ok st2 =>
        match createContainer st2 cfg with
        | .error e => .error e
        | .ok (st3, _) =>
          match getContainerIDByName st3 cfg.name with
          | .error e => .error e
          | .ok newId =>
            .ok (st3, newId,
              Event.freshnessChecked cfg.name :: pEvs ++ [Event.recreatedStale cfg.name])
    else .ok (st1, ctid, Event.freshnessChecked cfg.name :: pEvs)

/-- Remainder of one desired-spec loop iteration of `ensureContainers` after
the existence check and `CreateContainer` call (main.go lines 222-268):
`ensureContainerConfig` runs when `created` is false (its error is a
`log.Fatalf` in the source, modelled as the `fatalf` error); the engine id is
re-resolved by name; the update check runs exactly when
`updateCheck && !created`; finally the (possibly new) id is started. -/
def ensureRest (reg : Registry) (ucheck created : Bool) (st1 : Engine)
    (ev1 : List Event) (cfg : ContainerConfig) : Except DErr (Engine × List Event) :=
  match (if created then Except.ok (st1, ([] : List Event))
         else
           match ensureContainerConfig st1 cfg with
           | .error _ => Except.error DErr.fatalf
           | .ok r => Except.ok r) with
  | .error e => .error e
  | .ok (st2, ev2) =>
    match getContainerIDByName st2 cfg.name with
    | .error e => .error e
    | .ok ctid =>
      match (if ucheck && !created then freshnessStep reg st2 ctid cfg
             else .ok (st2, ctid, [])) with
      | .error e => .error e
      | .ok (st3, ctid2, ev3) =>
        match containerStart st3 ctid2 with
        | .error e => .error e
        | .ok st4 => .ok (st4, ev1 ++ ev2 ++ ev3 ++ [Event.started ctid2])

/-- One iteration of the desired-spec loop of `ensureContainers`
(main.go lines 197-269).  `running` is the container list fetched once before
the loop; the `created` flag is true only when the `CreateContainer` wrapper
actually created the container. -/
def ensureOne (reg : Registry) (running : List Container) (ucheck : Bool)
    (st : Engine) (cfg : ContainerConfig) : Except DErr (Engine × List Event) :=
  let found := running.any (fun c => decide ("/" ++ c.name = "/" ++ cfg.name))
  let stepCreate : Except DErr (Engine × Bool × List Event) :=
    if found then .ok (st, false, [])
    else
      match createContainer st cfg with
      | .error e => .error e
      | .ok (st', cr) => .ok (st', cr, if cr then [Event.created cfg.name] else [])
  match stepCreate with
  | .error e => .error e
  | .ok (st1, created, ev1) => ensureRest reg ucheck created st1 ev1 cfg

/-- The desired-spec loop of `ensureContainers`: sequential left-to-right,
aborting on the first error. -/
def ensureLoop (reg : Registry) (running : List Container) (ucheck : Bool)
    (st : Engine) (cfgs : List ContainerConfig) : Except DErr (Engine × List Event) :=
  match cfgs with
  | [] => .ok (st, [])
  | cfg :: rest =>
    match ensureOne reg running ucheck st cfg with
    | .error e => .error e
    | .ok (st', evs) =>
      match ensureLoop reg running ucheck st' rest with
      | .error e => .error e
      | .ok (st'', evs') => .ok (st'', evs ++ evs')

/-- Model of `ensureContainers` (main.go lines 189-272): fetch the running
containers once, then run the loop. -/
def ensureContainers (reg : Registry) (st : Engine) (cfgs : List ContainerConfig)
    (ucheck : Bool) : Except DErr (Engine × List Event) :=
  match containerList st with
  | .error e => .error e
  | .ok running => ensureLoop reg running ucheck st cfgs

/-- Event trace of a reconciliation pass (empty on an aborted pass). -/
def ensureTrace (reg : Registry) (st : Engine) (cfgs : List ContainerConfig)
    (ucheck : Bool) : List Event :=
  match ensureContainers reg st cfgs ucheck with
  | .ok (_, tr) => tr
  | .error _ => []

/-! Event-shape lemmas for the C4 analysis. -/

theorem ensureContainerConfig_events (st : Engine) (cfg : ContainerConfig)
    (st2 : Engine) (ev2 : List Event)
    (h : ensureContainerConfig st cfg = .ok (st2, ev2)) :
    Event.created cfg.name ∉ ev2 ∧ Event.freshnessChecked cfg.name ∉ ev2 ∧
    ∀ i, Event.started i ∉ ev2 := by
  unfold ensureContainerConfig at h
  split at h
  · cases h
  · split at h
    · split at h
      · cases h
      · split at h
        · split at h
          · cases h
          · split at h
            · cases h
            · injection h with h1
              injection h1 with _ h2
              subst h2
              refine ⟨by simp, by simp, fun i => by simp⟩
        · injection h with h1
          injection h1 with _ h2
          subst h2
          refine ⟨by simp, by simp, fun i => by simp⟩
    · injection h with h1
      injection h1 with _ h2
      subst h2
      refine ⟨by simp, by simp, fun i => by simp⟩

theorem isContainerUpToDate_fst (reg : Registry) (st : Engine) (cid : String)
    (cfg : ContainerConfig) :
    (isContainerUpToDate reg st cid cfg).1 = [] ∨
    (isContainerUpToDate reg st cid cfg).1 = [Event.pulled cfg.image] := by
  cases hin : containerInspect st cid with
  | error e =>
    rw [isContainerUpToDate, hin]
    exact Or.inl rfl
  | ok c =>
    rw [isContainerUpToDate, hin]
    exact Or.inr rfl

theorem freshnessStep_events (reg : Registry) (st : Engine) (ctid : String)
    (cfg : ContainerConfig) (st3 : Engine) (ctid2 : String) (ev3 : List Event)
    (h : freshnessStep reg st ctid cfg = .ok (st3, ctid2, ev3)) :
    Event.freshnessChecked cfg.name ∈ ev3 ∧ Event.created cfg.name ∉ ev3 ∧
    ∀ i, Event.started i ∉ ev3 := by
  unfold freshnessStep at h
  split at h
  · cases h
  · next pEvs upToDate st1 heq =>
    have hfst : (isContainerUpToDate reg st ctid cfg).1 = pEvs := by rw [heq]
    have hshape := isContainerUpToDate_fst reg st ctid cfg
    rw [hfst] at hshape
    split at h
    · split at h
      · cases h
      · split at h
        · cases h
        · split at h
          · cases h
          · injection h with h1
            injection h1 with _ h2
            injection h2 with _ h3
            subst h3
            rcases hshape with rfl | rfl
            · refine ⟨by simp, by simp, fun i => by simp⟩
            · refine ⟨by simp, by simp, fun i => by simp⟩
    · injection h with h1
      injection h1 with _ h2
      injection h2 with _ h3
      subst h3
      rcases hshape with rfl | rfl
      · refine ⟨by simp, by simp, fun i => by simp⟩
      · refine ⟨by simp, by simp, fun i => by simp⟩

theorem ensureRest_freshness_iff (reg : Registry) (ucheck created : Bool)
    (st1 : Engine) (ev1 : List Event) (cfg : ContainerConfig) (st' : Engine)
    (tr : List Event)
    (h : ensureRest reg ucheck created st1 ev1 cfg = .ok (st', tr))
    (hev1a : Event.freshnessChecked cfg.name ∉ ev1)
    (hev1b : Event.created cfg.name ∈ ev1 ↔ created = true)
    (hev1c : Event.recreatedMismatch cfg.name ∉ ev1) :
    (Event.freshnessChecked cfg.name ∈ tr ↔
      (ucheck = true ∧ Event.created cfg.name ∉ tr)) ∧
    (ucheck = true → Event.recreatedMismatch cfg.name ∈ tr →
      Event.freshnessChecked cfg.name ∈ tr) := by
  unfold ensureRest at h
  cases created with
  | true =>
    rw [if_pos rfl] at h
    dsimp only at h
    rcases hgid : getContainerIDByName st1 cfg.name with e | ctid
    all_goals rw [hgid] at h
    · cases h
    dsimp only at h
    simp only [Bool.not_true, Bool.and_false, Bool.false_eq_true, if_false] at h
    rcases hst : containerStart st1 ctid with e | st4
    all_goals rw [hst] at h
    · cases h
    dsimp only at h
    injection h with h1
    injection h1 with _ h2
    subst h2
    have hc : Event.created cfg.name ∈ ev1 := hev1b.mpr rfl
    simp [hev1a, hc, hev1c]
  | false =>
    rw [if_neg (by simp)] at h
    rcases hcc : ensureContainerConfig st1 cfg with e | r
    all_goals rw [hcc] at h
    · dsimp only at h
      cases h
    obtain ⟨st2, ev2⟩ := r
    dsimp only at h
    obtain ⟨hne1, hne2, hne3⟩ := ensureContainerConfig_events st1 cfg st2 ev2 hcc
    rcases hgid : getContainerIDByName st2 cfg.name with e | ctid
    all_goals rw [hgid] at h
    · cases h
    dsimp only at h
    rw [Bool.not_false, Bool.and_true] at h
    cases ucheck with
    | false =>
      simp only [Bool.false_eq_true, if_false] at h
      rcases hst : containerStart st2 ctid with e | st4
      all_goals rw [hst] at h
      · cases h
      dsimp only at h
      injection h with h1
      injection h1 with _ h2
      subst h2
      simp [hev1a, hne2]
    | true =>
      rw [if_pos rfl] at h
      rcases hff : freshnessStep reg st2 ctid cfg with e | r3
      all_goals rw [hff] at h
      · cases h
      obtain ⟨st3, ctid2, ev3⟩ := r3
      dsimp only at h
      obtain ⟨hf1, hf2, hf4⟩ := freshnessStep_events reg st2 ctid cfg st3 ctid2 ev3 hff
      rcases hst : containerStart st3 ctid2 with e | st4
      all_goals rw [hst] at h
      · cases h
      dsimp only at h
      injection h with h1
      injection h1 with _ h2
      subst h2
      have hnotc : Event.created cfg.name ∉ ev1 := fun hx => by cases hev1b.mp hx
      simp [hf1, hnotc, hne1, hf2]

/-- C4 amended: in one iteration of the desired-spec loop, the freshness check
runs iff update checking is enabled and the `CreateContainer` wrapper did not
report creating the container; in particular a container created from absence
is never freshness-checked in its iteration, but a container recreated for a
comparator mismatch IS freshness-checked afterwards in the same pass. -/
theorem ensureOne_freshness_iff (reg : Registry) (running : List Container)
    (ucheck : Bool) (st : Engine) (cfg : ContainerConfig) (st' : Engine)
    (tr : List Event)
    (h : ensureOne reg running ucheck st cfg = .ok (st', tr)) :
    (Event.freshnessChecked cfg.name ∈ tr ↔
      (ucheck = true ∧ Event.created cfg.name ∉ tr)) ∧
    (ucheck = true → Event.recreatedMismatch cfg.name ∈ tr →
      Event.freshnessChecked cfg.name ∈ tr) := by
  unfold ensureOne at h
  dsimp only at h
  by_cases hfound :
      (running.any fun c => decide ("/" ++ c.name = "/" ++ cfg.name)) = true
  · rw [if_pos hfound] at h
    dsimp only at h
    exact ensureRest_freshness_iff reg ucheck false st [] cfg st' tr h
      (by simp) (by simp) (by simp)
  · rw [if_neg hfound] at h
    rcases hcr : createContainer st cfg with e | r
    all_goals rw [hcr] at h
    · dsimp only at h
      cases h
    obtain ⟨stc, cr⟩ := r
    dsimp only at h
    cases cr with
    | true =>
      rw [if_pos rfl] at h
      exact ensureRest_freshness_iff reg ucheck true stc
        [Event.created cfg.name] cfg st' tr h (by simp) (by simp) (by simp)
    | false =>
      rw [if_neg (by simp)] at h
      exact ensureRest_freshness_iff reg ucheck false stc [] cfg st' tr h
        (by simp) (by simp) (by simp)

/-- Engine for the C4 counterexample: one running container `web` whose image
reference differs from the desired one. -/
def engC4 : Engine :=
  ⟨[⟨"c0", "web", "nginx:old", "sha256:old", [], [], [], none, true⟩],
    [⟨"sha256:new", ["nginx:latest"]⟩], true, 1⟩

/-- Registry for the C4 counterexample. -/
def regC4 : Registry := [("nginx:latest", ⟨"sha256:new", ["nginx:latest"]⟩)]

/-- Desired spec for the C4 counterexample. -/
def cfgWeb : ContainerConfig := ⟨"nginx:latest", "web", [], [], [], none⟩

/-- C4 counterexample: in a single pass with update checking enabled, the
container `web` is recreated for a comparator mismatch AND the freshness check
still runs for it in the same pass — contradicting the claim that a container
just recreated for mismatch is not independently freshness-checked. -/
theorem freshness_after_mismatch_recreate :
    Event.recreatedMismatch "web" ∈ ensureTrace regC4 engC4 [cfgWeb] true ∧
    Event.freshnessChecked "web" ∈ ensureTrace regC4 engC4 [cfgWeb] true := by
  decide

/-- Witness for the C4 amended theorem: a run where the freshness check fires
(mismatch-recreated container) with the hypotheses discharged concretely. -/
theorem ensureOne_freshness_iff_witness :
    (Event.freshnessChecked "web" ∈ ensureTrace regC4 engC4 [cfgWeb] true ↔
      (true = true ∧ Event.created "web" ∉ ensureTrace regC4 engC4 [cfgWeb] true)) ∧
    (true = true →
      Event.recreatedMismatch "web" ∈ ensureTrace regC4 engC4 [cfgWeb] true →
      Event.freshnessChecked "web" ∈ ensureTrace regC4 engC4 [cfgWeb] true) := by
  have h := ensureOne_freshness_iff regC4 engC4.containers true engC4 cfgWeb
  have hrun : ∃ st', ensureOne regC4 engC4.containers true engC4 cfgWeb =
      .ok (st', ensureTrace regC4 engC4 [cfgWeb] true) := by
    refine ⟨(match ensureOne regC4 engC4.containers true engC4 cfgWeb with
      | .ok (s, _) => s
      | .error _ => engC4), ?_⟩
    rfl
  obtain ⟨st', hst⟩ := hrun
  exact h st' _ hst

/-! Stats data model and the derived metrics of `pkg/metrics/metrics.go`. -/

/-- Go float64 values, modelled exactly for the aspects the claims need: a
rational magnitude plus the IEEE special values.  Decimal rounding is not
modelled — the claims only concern the zero/non-zero and special-value
classification, which exact rationals preserve — and there is no negative
zero. -/
inductive GoFloat where
  | nan
  | inf
  | negInf
  | finite (q : ℚ)
deriving DecidableEq, Repr

/-- IEEE float64 multiplication on the model. -/
def GoFloat.mul : GoFloat → GoFloat → GoFloat
  | nan, _ => nan
  | _, nan => nan
  | inf, inf => inf
  | inf, negInf => negInf
  | inf, finite q => if q = 0 then nan else if 0 < q then inf else negInf
  | negInf, inf => negInf
  | negInf, negInf => inf
  | negInf, finite q => if q = 0 then nan else if 0 < q then negInf else inf
  | finite q, inf => if q = 0 then nan else if 0 < q then inf else negInf
  | finite q, negInf => if q = 0 then nan else if 0 < q then negInf else inf
  | finite a, finite b => finite (a * b)

/-- IEEE float64 division on the model: `0/0` is NaN and `x/0` for `x ≠ 0` is
a signed infinity — there is no error and no exception. -/
def GoFloat.div : GoFloat → GoFloat → GoFloat
  | nan, _ => nan
  | _, nan => nan
  | inf, inf => nan
  | inf, negInf => nan
  | negInf, inf => nan
  | negInf, negInf => nan
  | inf, finite q => if 0 ≤ q then inf else negInf
  | negInf, finite q => if 0 ≤ q then negInf else inf
  | finite _, inf => finite 0
  | finite _, negInf => finite 0
  | finite a, finite b =>
    if b = 0 then (if a = 0 then nan else if 0 < a then inf else negInf)
    else finite (a / b)

/-- Go unsigned 64-bit subtraction `a - b` (wraps modulo `2 ^ 64`). -/
def u64sub (a b : Nat) : Nat := (a + (2 ^ 64 - b % 2 ^ 64)) % 2 ^ 64

/-- `types.CPUUsage`: total plus per-CPU counters. -/
structure CPUUsage where
  totalUsage : Nat
  percpuUsage : List Nat
deriving DecidableEq, Repr

/-- `types.CPUStats`. -/
structure CPUStats where
  cpuUsage : CPUUsage
  systemUsage : Nat
deriving DecidableEq, Repr

/-- `types.MemoryStats`; `stats` is the cgroup counter map (a Go map read of a
missing key yields the zero value). -/
structure MemoryStats where
  usage : Nat
  maxUsage : Nat
  limit : Nat
  stats : List (String × Nat)
deriving DecidableEq, Repr

/-- `types.NetworkStats` (the per-interface counters used here). -/
structure NetworkStats where
  rxBytes : Nat
  txBytes : Nat
deriving DecidableEq, Repr

/-- One `types.BlkioStatEntry` of `IoServiceBytesRecursive`. -/
structure BlkioEntry where
  op : String
  value : Nat
deriving DecidableEq, Repr

/-- `types.StatsJSON`, restricted to the fields `UpdateMetrics` reads. -/
structure StatsJSON where
  id : String
  name : String
  cpuStats : CPUStats
  preCPUStats : CPUStats
  memoryStats : MemoryStats
  networks : List (String × NetworkStats)
  blkio : List BlkioEntry
deriving DecidableEq, Repr

/-- Go map read `m[k]` with the zero value for a missing key
(`stats.MemoryStats.Stats["cache"]`). -/
def statLookup (m : List (String × Nat)) (k : String) : Nat :=
  match m.find? (fun kv => decide (kv.1 = k)) with
  | some kv => kv.2
  | none => 0

/-- CPU-percent computation of `UpdateMetrics` (pkg/metrics/metrics.go lines
127-129): `cpuDelta / systemDelta * numCPUs * 100` over float64, with uint64
wrap-around subtraction and NO zero guard on the denominator. -/
def cpuPercentModel (s : StatsJSON) : GoFloat :=
  let cpuDelta := GoFloat.finite
    ((u64sub s.cpuStats.cpuUsage.totalUsage s.preCPUStats.cpuUsage.totalUsage : Nat) : ℚ)
  let systemDelta := GoFloat.finite
    ((u64sub s.cpuStats.systemUsage s.preCPUStats.systemUsage : Nat) : ℚ)
  ((cpuDelta.div systemDelta).mul
      (GoFloat.finite ((s.cpuStats.cpuUsage.percpuUsage.length : Nat) : ℚ))).mul
    (GoFloat.finite 100)

/-- The sums over `IoServiceBytesRecursive`: `read` adds to the first
component, `write` to the second, any other label to neither. -/
def blkSums (l : List BlkioEntry) : Nat × Nat :=
  l.foldl
    (fun acc bio =>
      if bio.op = "read" then (acc.1 + bio.value, acc.2)
      else if bio.op = "write" then (acc.1, acc.2 + bio.value)
      else acc)
    (0, 0)

/-- The gauge values one `UpdateMetrics` call records, labelled by
`(container_id, container_name)`. -/
structure GaugeRecord where
  containerID : String
  containerName : String
  cpuPercent : GoFloat
  memoryUsage : ℚ
  memoryMaxUsage : ℚ
  memoryLimit : ℚ
  memoryCache : ℚ
  memoryRSS : ℚ
  memoryUsageOverall : ℚ
  networkRx : Nat
  networkTx : Nat
  blkRead : Nat
  blkWrite : Nat
deriving DecidableEq, Repr

/-- Model of `DockerMetrics.UpdateMetrics` (pkg/metrics/metrics.go lines
122-168): the eleven gauges computed from one stats sample. -/
def updateMetricsRecord (s : StatsJSON) : GaugeRecord :=
  { containerID := s.id
    containerName := s.name
    cpuPercent := cpuPercentModel s
    memoryUsage := (s.memoryStats.usage : ℚ)
    memoryMaxUsage := (s.memoryStats.maxUsage : ℚ)
    memoryLimit := (s.memoryStats.limit : ℚ)
    memoryCache := (statLookup s.memoryStats.stats "cache" : ℚ)
    memoryRSS := (statLookup s.memoryStats.stats "rss" : ℚ)
    memoryUsageOverall :=
      (s.memoryStats.usage : ℚ) - (statLookup s.memoryStats.stats "cache" : ℚ)
    networkRx := s.networks.foldl (fun acc kv => acc + kv.2.rxBytes) 0
    networkTx := s.networks.foldl (fun acc kv => acc + kv.2.txBytes) 0
    blkRead := (blkSums s.blkio).1
    blkWrite := (blkSums s.blkio).2 }

/-- Stats sample with equal current and previous system usage, for C3. -/
def statsZero : StatsJSON :=
  ⟨"c0", "/web", ⟨⟨0, []⟩, 5⟩, ⟨⟨0, []⟩, 5⟩, ⟨0, 0, 0, []⟩, [], []⟩

/-- C3 counterexample: with a zero system-usage delta the computed CPU percent
is NaN, not the claimed exact 0 — the division is unguarded. -/
theorem cpuPercent_zero_denominator_nan :
    u64sub statsZero.cpuStats.systemUsage statsZero.preCPUStats.systemUsage = 0 ∧
    cpuPercentModel statsZero = GoFloat.nan ∧
    cpuPercentModel statsZero ≠ GoFloat.finite 0 := by
  decide

/-- C3 amended: when the system-usage delta is zero, the computed CPU percent
is NaN (zero CPU delta, or zero per-CPU count after an infinite quotient) or
positive infinity — never a finite value, in particular never 0; there is no
zero guard in the code. -/
theorem cpuPercent_zero_denominator (s : StatsJSON)
    (h : u64sub s.cpuStats.systemUsage s.preCPUStats.systemUsage = 0) :
    cpuPercentModel s = GoFloat.nan ∨ cpuPercentModel s = GoFloat.inf := by
  unfold cpuPercentModel
  rw [h]
  simp only [Nat.cast_zero]
  by_cases ha :
      ((u64sub s.cpuStats.cpuUsage.totalUsage s.preCPUStats.cpuUsage.totalUsage : Nat) : ℚ) = 0
  · left
    rw [ha]
    simp [GoFloat.div, GoFloat.mul]
  · have hpos : (0 : ℚ) <
        ((u64sub s.cpuStats.cpuUsage.totalUsage s.preCPUStats.cpuUsage.totalUsage : Nat) : ℚ) :=
      lt_of_le_of_ne (Nat.cast_nonneg _) (Ne.symm ha)
    by_cases hl : ((s.cpuStats.cpuUsage.percpuUsage.length : Nat) : ℚ) = 0
    · left
      simp [GoFloat.div, GoFloat.mul, ha, hpos, hl]
    · have hlpos : (0 : ℚ) < ((s.cpuStats.cpuUsage.percpuUsage.length : Nat) : ℚ) :=
        lt_of_le_of_ne (Nat.cast_nonneg _) (Ne.symm hl)
      right
      simp [GoFloat.div, GoFloat.mul, ha, hpos, hl, hlpos]

/-- Witness for the C3 amended theorem at a concrete sample. -/
theorem cpuPercent_zero_denominator_witness :
    cpuPercentModel statsZero = GoFloat.nan ∨
    cpuPercentModel statsZero = GoFloat.inf :=
  cpuPercent_zero_denominator statsZero (by decide)

/-! Stats aggregation: the `GenerateMetrics` HTTP handler (main.go lines
305-373) and the two other control handlers (C6, C9). -/

/-- Outcome of one HTTP handler invocation.  `processExit` models `log.Fatalf`
(the process terminates, the request is never answered); `error500` models
`http.Error(w, msg, http.StatusInternalServerError)` with the batched message
parts. -/
inductive HandlerOutcome where
  | ok (body : String)
  | error500 (msgs : List String)
  | processExit
deriving DecidableEq, Repr

/-- The per-container error string of the stats fan-out
(`fmt.Errorf("could not fetch stats for container %s: %v", ...)`). -/
def statsErrMsg (cid cause : String) : String :=
  "could not fetch stats for container " ++ cid ++ ": " ++ cause

/-- The `io.ReadAll` error string of the fan-out goroutine. -/
def readErrMsg (cid cause : String) : String :=
  "could not read stats for container " ++ cid ++ ": " ++ cause

/-- The `json.Unmarshal` error string of the fan-out goroutine. -/
def unmarshalErrMsg (cid cause : String) : String :=
  "could not unmarshal stats for container " ++ cid ++ ": " ++ cause

/-- Body read and decode attempts of one fan-out goroutine after a successful
`cli.ContainerStats` call (main.go lines 329-344).  `readErr` is the
`io.ReadAll` error, if any — the source does NOT return on it and goes on to
unmarshal the bytes it got.  `decoded` is the `json.Unmarshal` outcome on
those bytes; its error case carries the message cause and whatever (zero or
partial) value the target variable holds, because the source does not return
on that error either and pushes the variable to the sample channel
regardless. -/
structure BodyReply where
  readErr : Option String
  decoded : Except (String × StatsJSON) StatsJSON

/-- Result of one `cli.ContainerStats` call: the call itself fails (the
goroutine sends one error and returns, main.go lines 325-328), or it yields a
body whose read/decode attempts behave per `BodyReply`. -/
inductive StatsReply where
  | fetchErr (cause : String)
  | body (b : BodyReply)

/-- Channel sends of one fan-out goroutine (main.go lines 321-345), in
program order: the messages it pushes onto `errChan` and the samples it pushes
onto `statsChan`.  Only the fetch-error path returns early; a read error falls
through to the unmarshal (which then also fails on the partial bytes, a second
error), and an unmarshal error falls through to the sample send, pushing the
residual variable value. -/
def taskSends (cid : String) : StatsReply → List String × List StatsJSON
  | .fetchErr cause => ([statsErrMsg cid cause], [])
  | .body b =>
    let es1 : List String :=
      match b.readErr with
      | some cause => [readErrMsg cid cause]
      | none => []
    match b.decoded with
    | .ok s => (es1, [s])
    | .error (cause, residual) => (es1 ++ [unmarshalErrMsg cid cause], [residual])

/-- Sends of all fan-out goroutines, linearized in observed-container order
(channel arrival order is nondeterministic; every theorem below only uses
membership). -/
def statsSends (stats : String → StatsReply) (containers : List Container) :
    List (List String × List StatsJSON) :=
  containers.map (fun c => taskSends c.id (stats c.id))

/-- Every message pushed onto `errChan`. -/
def statsErrs (stats : String → StatsReply) (containers : List Container) :
    List String :=
  ((statsSends stats containers).map Prod.fst).flatten

/-- Every sample pushed onto `statsChan`. -/
def statsSamplesAll (stats : String → StatsReply) (containers : List Container) :
    List StatsJSON :=
  ((statsSends stats containers).map Prod.snd).flatten

/-- Outcome of one `GenerateMetrics` invocation: an HTTP answer together with
the gauge records written before it, or a deadlock — the handler never
responds. -/
inductive MetricsResult where
  | answered (gauges : List GaugeRecord) (response : HandlerOutcome)
  | deadlock
deriving DecidableEq, Repr

/-- Model of the `GenerateMetrics` handler (main.go lines 305-373): list the
containers (500 on failure), fan out one goroutine per container, then join
and drain.  Both channels are buffered to the container count and nothing is
drained before `wg.Wait()` returns.  Each goroutine pushes at most one sample,
so `statsChan` never blocks; but a goroutine may push TWO errors (read error
falling through to an unmarshal error), so when the total error sends exceed
the `errChan` capacity some producer blocks forever, `wg.Wait()` never
returns, the channels are never closed and no response is written — a
deadlock, for every interleaving.  Otherwise all sends complete, the samples
(including the residual value of a container whose unmarshal failed) are
drained into `UpdateMetrics`, and only then are the errors batched into a
single 500, or the metrics page is served. -/
def generateMetricsHandler (stats : String → StatsReply) (st : Engine) :
    MetricsResult :=
  match containerList st with
  | .error _ => .answered [] (.error500 ["Could not list containers"])
  | .ok containers =>
    if containers.length < (statsErrs stats containers).length then .deadlock
    else
      .answered ((statsSamplesAll stats containers).map updateMetricsRecord)
        (if (statsErrs stats containers).length > 0 then
          .error500 (statsErrs stats containers)
        else .ok "metrics page")

/-- A stats reply whose goroutine pushes at most one error and no garbage
sample: the fetch itself failed, or the body was read and decoded cleanly. -/
def isCleanB : StatsReply → Bool
  | .fetchErr _ => true
  | .body b =>
    match b.readErr, b.decoded with
    | none, .ok _ => true
    | _, _ => false

theorem taskSends_clean (cid : String) (r : StatsReply) (h : isCleanB r = true) :
    (∃ cause, r = .fetchErr cause ∧
      taskSends cid r = ([statsErrMsg cid cause], [])) ∨
    (∃ s, r = .body ⟨none, .ok s⟩ ∧ taskSends cid r = ([], [s])) := by
  cases r with
  | fetchErr cause => exact Or.inl ⟨cause, rfl, rfl⟩
  | body b =>
    obtain ⟨re, dec⟩ := b
    cases re with
    | some cause => simp [isCleanB] at h
    | none =>
      cases dec with
      | error p => simp [isCleanB] at h
      | ok s => exact Or.inr ⟨s, rfl, rfl⟩

theorem clean_errs_length (stats : String → StatsReply) (l : List Container)
    (h : ∀ c ∈ l, isCleanB (stats c.id) = true) :
    (statsErrs stats l).length ≤ l.length := by
  induction l with
  | nil => simp [statsErrs, statsSends]
  | cons c rest ih =>
    simp only [statsErrs, statsSends, List.map_cons, List.flatten_cons,
      List.length_append, List.length_cons]
    have h1 : (taskSends c.id (stats c.id)).1.length ≤ 1 := by
      rcases taskSends_clean c.id (stats c.id) (h c (List.mem_cons_self c rest))
        with ⟨cause, _, he⟩ | ⟨s, _, he⟩ <;> simp [he]
    have h2 := ih (fun x hx => h x (List.mem_cons_of_mem c hx))
    simp only [statsErrs, statsSends] at h2
    omega

/-- Zero value of `types.StatsJSON` (what `var statsJSON types.StatsJSON`
holds after a failed unmarshal of empty/partial bytes). -/
def statsJSONZero : StatsJSON :=
  ⟨"", "", ⟨⟨0, []⟩, 0⟩, ⟨⟨0, []⟩, 0⟩, ⟨0, 0, 0, []⟩, [], []⟩

/-- One-container engine for the C9 counterexample. -/
def engOneC : Engine :=
  ⟨[⟨"c1", "web", "nginx:latest", "sha256:a", [], [], [], none, true⟩], [], true, 2⟩

/-- Stats behaviour for the C9 counterexample: the body read fails mid-stream,
so the unmarshal of the partial bytes fails too — the goroutine pushes two
errors onto an error channel of capacity one. -/
def statsReadFail : String → StatsReply := fun _ =>
  .body ⟨some "connection reset",
    .error ("unexpected end of JSON input", statsJSONZero)⟩

/-- C9 counterexample: with a single container whose stats body read fails,
the goroutine's second error send overflows the error channel (sized to the
container count), the wait group never completes and the handler deadlocks —
no batched error is ever reported to the caller, contradicting the claim. -/
theorem metrics_readfail_deadlock :
    generateMetricsHandler statsReadFail engOneC = MetricsResult.deadlock := by
  decide

/-- C9 amended: when every failing container fails at the stats-fetch call
itself (each goroutine pushes at most one error and no garbage sample), the
handler answers: the gauges of every cleanly decoded container are recorded,
and as soon as one fetch failed the response is a single 500 batching one
message per failing container, each containing that container's id and
cause — emitted only after the successful gauges.  Read/unmarshal failures
fall outside this guarantee: they push a second error (possible channel
overflow and deadlock, see the counterexample) and a residual zero-value
sample that is recorded as gauges. -/
theorem metrics_partial_batch_clean (stats : String → StatsReply) (st : Engine)
    (hup : st.listOk = true)
    (hclean : ∀ c ∈ st.containers, isCleanB (stats c.id) = true) :
    ∃ gauges resp, generateMetricsHandler stats st = .answered gauges resp ∧
      (∀ c ∈ st.containers, ∀ s, stats c.id = .body ⟨none, .ok s⟩ →
        updateMetricsRecord s ∈ gauges) ∧
      (∀ c ∈ st.containers, ∀ e, stats c.id = .fetchErr e →
        ∃ msgs, resp = .error500 msgs ∧ statsErrMsg c.id e ∈ msgs ∧
          ∀ c' ∈ st.containers, ∀ e', stats c'.id = .fetchErr e' →
            statsErrMsg c'.id e' ∈ msgs) := by
  have hlen := clean_errs_length stats st.containers hclean
  have hmem : ∀ c ∈ st.containers, ∀ e, stats c.id = .fetchErr e →
      statsErrMsg c.id e ∈ statsErrs stats st.containers := by
    intro c hc e he
    simp only [statsErrs, statsSends, List.mem_flatten, List.mem_map]
    refine ⟨(taskSends c.id (stats c.id)).1, ⟨taskSends c.id (stats c.id),
      ⟨c, hc, rfl⟩, rfl⟩, ?_⟩
    rw [he]
    simp [taskSends]
  have hopen : generateMetricsHandler stats st =
      .answered ((statsSamplesAll stats st.containers).map updateMetricsRecord)
        (if (statsErrs stats st.containers).length > 0 then
          .error500 (statsErrs stats st.containers)
        else .ok "metrics page") := by
    rw [generateMetricsHandler, containerList, if_pos hup]
    dsimp only
    rw [if_neg (by omega)]
  refine ⟨_, _, hopen, ?_, ?_⟩
  · intro c hc s hs
    refine List.mem_map_of_mem _ ?_
    simp only [statsSamplesAll, statsSends, List.mem_flatten, List.mem_map]
    refine ⟨(taskSends c.id (stats c.id)).2, ⟨taskSends c.id (stats c.id),
      ⟨c, hc, rfl⟩, rfl⟩, ?_⟩
    rw [hs]
    simp [taskSends]
  · intro c hc e he
    have hin := hmem c hc e he
    have hpos : 0 < (statsErrs stats st.containers).length :=
      List.length_pos.mpr (List.ne_nil_of_mem hin)
    exact ⟨statsErrs stats st.containers, if_pos hpos, hin,
      fun c' hc' e' he' => hmem c' hc' e' he'⟩

/-- Concrete two-container engine for the C9 witness. -/
def engStats : Engine :=
  ⟨[⟨"c1", "web", "nginx:latest", "sha256:a", [], [], [], none, true⟩,
    ⟨"c2", "db", "postgres:16", "sha256:b", [], [], [], none, true⟩], [], true, 3⟩

/-- Stats function for the C9 witness: `c1` decodes cleanly, `c2` fails at the
fetch call. -/
def statsFn : String → StatsReply := fun cid =>
  if cid = "c1" then .body ⟨none, .ok statsZero⟩ else .fetchErr "engine timeout"

/-- Witness for the C9 amended theorem: one of two containers fails at fetch;
the successful one's gauges are recorded and the response batches the failure
with id and cause. -/
theorem metrics_partial_batch_clean_witness :
    ∃ gauges resp, generateMetricsHandler statsFn engStats = .answered gauges resp ∧
      (∀ c ∈ engStats.containers, ∀ s, statsFn c.id = .body ⟨none, .ok s⟩ →
        updateMetricsRecord s ∈ gauges) ∧
      (∀ c ∈ engStats.containers, ∀ e, statsFn c.id = .fetchErr e →
        ∃ msgs, resp = .error500 msgs ∧ statsErrMsg c.id e ∈ msgs ∧
          ∀ c' ∈ engStats.containers, ∀ e', statsFn c'.id = .fetchErr e' →
            statsErrMsg c'.id e' ∈ msgs) :=
  metrics_partial_batch_clean statsFn engStats rfl (by decide)

/-! Control handlers (main.go lines 375-409, C6). -/

/-- Process-wide state of the program: the engine, the current configuration
(`cfg`, guarded by `cfgMu`) and the package-level desired-spec slice that
`ConfigToDockerConfig` appends to. -/
structure AppState where
  engine : Engine
  cfg : Config
  specAcc : List ContainerConfig

/-- Model of the `/update` handler `reconcileContainers` (main.go lines
375-399): convert the configuration (appending to the package-level slice),
optionally prune, then ensure the containers.  Every error path calls
`log.Fatalf`, which terminates the process — modelled as `processExit` — so no
HTTP response is written on failure. -/
def reconcileContainersHandler (reg : Registry) (s : AppState) :
    HandlerOutcome × AppState :=
  let specs := configToDockerConfig s.specAcc s.cfg
  let s1 : AppState := { s with specAcc := specs }
  match (if s.cfg.appConfig.removeUnwantedContainers then
           removeUnwantedContainers s.engine specs
         else .ok (s.engine, [])) with
  | .error _ => (.processExit, s1)
  | .ok (eng1, _) =>
    match ensureContainers reg eng1 specs s.cfg.appConfig.updateCheck with
    | .error _ => (.processExit, { s1 with engine := eng1 })
    | .ok (eng2, _) => (.ok "Containers reconciled\n", { s1 with engine := eng2 })

/-- Model of the `/reload` handler `reloadConfig` (main.go lines 401-409):
re-read the configuration; on a read error the handler calls `log.Fatalf`
(process exit), otherwise it swaps the global configuration and answers with
the plaintext confirmation. -/
def reloadConfigHandler (readResult : Except String Config) (s : AppState) :
    HandlerOutcome × AppState :=
  match readResult with
  | .error _ => (.processExit, s)
  | .ok c => (.ok "Config reloaded\n", { s with cfg := c })

/-- Engine whose list call fails (transport failure), for C6. -/
def engDown : Engine := ⟨[], [], false, 0⟩

/-- C6 evaluation: on a failing reconciliation trigger and a failing config
reload the process exits via `log.Fatalf` without answering the HTTP request
(contradicting the claimed 500-with-error-text response), while the metrics
handler does answer 500 on its failure. -/
theorem handlers_fatal_on_error :
    (reconcileContainersHandler [] ⟨engDown, cfgDemo, []⟩).1 =
      HandlerOutcome.processExit ∧
    (reloadConfigHandler (.error "read error") ⟨engDown, cfgDemo, []⟩).1 =
      HandlerOutcome.processExit ∧
    generateMetricsHandler (fun _ => StatsReply.fetchErr "boom") engDown =
      MetricsResult.answered [] (HandlerOutcome.error500 ["Could not list containers"]) := by
  decide
